import Mathlib

/-!
Verification of `recon_compare.py`, a script that compares MRI reconstruction
models: it undersamples a ground-truth k-space with a Poisson-disc mask,
acquires coil sensitivity maps (loaded or computed), runs each model on the
undersampled data, and reports PSNR/NRMSE/SSIM metrics plus rendered views.

The embedding below models NumPy arrays as shape-annotated index functions
over exact rational complex numbers.  External numeric routines (the Poisson
mask generator, the Jsense sensitivity estimator, the complex64 rounding of
`astype`, the PSNR/NRMSE/SSIM primitives from `utils.metrics`, and each
model's `run`) are parameters of the embedded functions, since the script
treats them as opaque collaborators.  Buffer aliasing and in-place mutation
(relevant to the `.copy()` calls in the source) are modelled separately with
an explicit heap of array buffers.
-/

/-- Complex scalars as exact rational pairs (real part, imaginary part). -/
abbrev Cpx := ℚ × ℚ

/-- Complex multiplication on `Cpx`. -/
def cmul (a b : Cpx) : Cpx :=
  (a.1 * b.1 - a.2 * b.2, a.1 * b.2 + a.2 * b.1)

/-- A NumPy ndarray of complex values: a shape together with an index
function.  Only indices that are elementwise below the shape are meaningful. -/
structure NDArray where
  shape : List Nat
  data : List Nat → Cpx

/-- The number of axes, `a.ndim`. -/
def NDArray.ndim (a : NDArray) : Nat := a.shape.length

/-- The extent of the last axis, `a.shape[-1]` (0 for a 0-d array). -/
def lastDim (a : NDArray) : Nat := a.shape.getLastD 0

/-- The slice `a[:, :, :, i]` of a 4-D array (drop the last axis, fix it
to `i`). -/
def slice3 (a : NDArray) (i : Nat) : NDArray :=
  ⟨a.shape.dropLast, fun idx => a.data (idx ++ [i])⟩

/-- Insert a singleton leading axis: `np.expand_dims(a, axis=0)`. -/
def expandDims0 (a : NDArray) : NDArray :=
  ⟨1 :: a.shape, fun idx => a.data idx.tail⟩

/-- Elementwise map over an array (models `astype` casts, applied pointwise). -/
def mapArr (f : Cpx → Cpx) (a : NDArray) : NDArray :=
  ⟨a.shape, fun idx => f (a.data idx)⟩

/-- NumPy broadcasting of an index against a (same-rank) shape: an axis of
extent 1 is indexed at 0. -/
def bcIdx (s : List Nat) (idx : List Nat) : List Nat :=
  List.zipWith (fun n i => if n = 1 then 0 else i) s idx

/-- Elementwise product `m * t` where `m`'s shape broadcasts against `t`'s
shape (every axis of `m` has extent 1 or equals `t`'s extent, as in the
source where `m` has shape `[1, z, y, 1]`). -/
def bcMul (m t : NDArray) : NDArray :=
  ⟨t.shape, fun idx => cmul (m.data (bcIdx m.shape idx)) (t.data idx)⟩

/-- Reshape, `np.reshape(mask, [1, z, y, 1])`, of a 2-D mask of shape `[z, y]`:
entry `(0, b, c, 0)` is `mask[b, c]`. -/
def reshapeMask (mask : NDArray) (z y : Nat) : NDArray :=
  ⟨[1, z, y, 1], fun idx => mask.data ((idx.drop 1).take 2)⟩

/-- The dimensionality normalisation applied to the sensitivity map at
lines 117-118 of `recon_compare.py`: `if sensemap.ndim != 5:
sensemap = np.expand_dims(sensemap, axis=0)`. -/
def normalizeSensemap (a : NDArray) : NDArray :=
  if a.ndim ≠ 5 then expandDims0 a else a

/-- A filesystem path as produced by `os.path.join(dir, base)`. -/
structure FPath where
  dir : String
  base : String
deriving DecidableEq

/-- Path join, `os.path.join`. -/
def pathJoin (d f : String) : FPath := ⟨d, f⟩

/-- Payload of a file written by the setup phase: a rendered png or a saved
`.npy` array. -/
inductive FilePayload
  | png
  | npy (a : NDArray)

/-- Result of the mask/input/sensemap setup phase. -/
structure PipeResult where
  kspace_input : NDArray
  sensemap : NDArray
  writes : List (FPath × FilePayload)

/-- Embedding of lines 91-118 of `recon_compare.py` (mask synthesis, input
k-space construction and persistence, sensitivity-map acquisition).
Parameters stand for the external collaborators: `c64` is the pointwise
complex64 rounding of `astype(np.complex64)`, `poisson` is the 2-D mask
returned by `sigpy.mri.poisson`, `jsense` is `JsenseRecon(...).run()` as a
function of the k-space it is given, and `suppliedSensemap` is the array
loaded from `--sensemap` when that flag is present. -/
def reconPipeline (output_dir : String) (c64 : Cpx → Cpx)
    (poisson : NDArray) (jsense : NDArray → NDArray)
    (suppliedSensemap : Option NDArray) (kspace_truth : NDArray) : PipeResult :=
  let shape_z := kspace_truth.shape.getD 1 0
  let shape_y := kspace_truth.shape.getD 2 0
  let maskWrite := (pathJoin output_dir "mask.png", FilePayload.png)
  let mask := reshapeMask poisson shape_z shape_y
  let kspace_input := mapArr c64 (bcMul mask kspace_truth)
  let kinWrite := (pathJoin output_dir "kspace_input.npy", FilePayload.npy kspace_input)
  match suppliedSensemap with
  | some s =>
      ⟨kspace_input, normalizeSensemap s, [maskWrite, kinWrite]⟩
  | none =>
      let sm := mapArr c64 (jsense kspace_input)
      ⟨kspace_input, normalizeSensemap sm,
        [maskWrite, kinWrite, (pathJoin output_dir "sensemap.npy", FilePayload.npy sm)]⟩

/-- Value of the PSNR metric: a finite rational or `+∞` (the identity case
of `20 * log10(peak / rmse)` with `rmse = 0`). -/
inductive RVal
  | fin (q : ℚ)
  | pinf
deriving DecidableEq

/-- The record returned by `compute_metrics`. -/
structure MetricsRec where
  psnr : RVal
  nrmse : ℚ
  ssim : ℚ
deriving DecidableEq

/-- Value-level embedding of `compute_metrics` (lines 19-29 of
`recon_compare.py`), parametric in the three metric primitives from
`utils.metrics` (not part of `src/`).  The `.copy()` calls of the source are
identities at the value level (see `compute_metricsH` for the buffer-level
embedding).  `ssimF` receives the `sos_axis` argument (always 0 here).
The final `ssim_total / ref.shape[-1]` is a Python scalar division, which
raises `ZeroDivisionError` when the last axis has extent 0; this is modelled
by the `Except` error. -/
def compute_metrics (psnrF : NDArray → NDArray → RVal)
    (nrmseF : NDArray → NDArray → ℚ) (ssimF : NDArray → NDArray → Nat → ℚ)
    (ref x : NDArray) : Except String MetricsRec :=
  let psnr := psnrF ref x
  let nrmse := nrmseF ref x
  let n := lastDim ref
  let ssim_total :=
    (List.range n).foldl (fun acc i => acc + ssimF (slice3 ref i) (slice3 x i) 0) 0
  if n = 0 then .error "ZeroDivisionError"
  else .ok ⟨psnr, nrmse, ssim_total / (n : ℚ)⟩

/-! ### Buffer-level (heap) embedding

Python passes ndarrays by reference, and the source guards against in-place
mutation by callees with explicit `.copy()` calls.  To reason about these we
model a heap of array buffers addressed by naturals: `.copy()` allocates a
fresh buffer, and every callee is modelled as a function that returns, besides
its value, the final contents of the two buffers it was handed (so a callee
that mutates its arguments in place is representable). -/

/-- A heap of array buffers: addresses below `next` are allocated. -/
structure Heap where
  next : Nat
  mem : Nat → NDArray

/-- Allocate a fresh buffer holding `a` (models `.copy()` and temporaries);
the new buffer's address is the allocating heap's `next`. -/
def Heap.alloc (h : Heap) (a : NDArray) : Heap :=
  ⟨h.next + 1, fun r => if r = h.next then a else h.mem r⟩

/-- Overwrite the buffer at address `r` (models in-place mutation). -/
def Heap.write (h : Heap) (r : Nat) (a : NDArray) : Heap :=
  ⟨h.next, fun s => if s = r then a else h.mem s⟩

/-- Result of calling an external routine on two array buffers: the returned
value together with the final contents of the first and second argument
buffers (the callee may have mutated either in place). -/
structure CallResult (α : Type) where
  value : α
  buf1 : NDArray
  buf2 : NDArray

/-- The psnr/nrmse part of the buffer-level `compute_metrics` (lines 20-21):
`metrics.compute_psnr(ref.copy(), x.copy())` then
`metrics.compute_nrmse(ref.copy(), x.copy())`.  Each `.copy()` is a fresh
allocation; the callee's final buffer contents are written back to those
fresh buffers (an in-place callee mutates only the copies).  Returns the two
values and the heap afterwards. -/
def cmPrelude (psnrI : NDArray → NDArray → CallResult RVal)
    (nrmseI : NDArray → NDArray → CallResult ℚ)
    (refA xA : Nat) (h : Heap) : RVal × ℚ × Heap :=
  let h1 := h.alloc (h.mem refA)
  let h2 := h1.alloc (h1.mem xA)
  let cp := psnrI (h2.mem h.next) (h2.mem h1.next)
  let h3 := (h2.write h.next cp.buf1).write h1.next cp.buf2
  let h4 := h3.alloc (h3.mem refA)
  let h5 := h4.alloc (h4.mem xA)
  let cn := nrmseI (h5.mem h3.next) (h5.mem h4.next)
  let h6 := (h5.write h3.next cn.buf1).write h4.next cn.buf2
  (cp.value, cn.value, h6)

/-- One iteration of the ssim loop (lines 24-27):
`metrics.compute_ssim(ref[:, :, :, i].copy(), x[:, :, :, i].copy(),
sos_axis=0)`, accumulated into `ssim_total`.  Both slice copies are fresh
allocations; the callee's final buffer contents are written back to them. -/
def cmStep (ssimI : NDArray → NDArray → Nat → CallResult ℚ)
    (refA xA : Nat) (acc : ℚ × Heap) (i : Nat) : ℚ × Heap :=
  let hh := acc.2
  let hh1 := hh.alloc (slice3 (hh.mem refA) i)
  let hh2 := hh1.alloc (slice3 (hh1.mem xA) i)
  let cs := ssimI (hh2.mem hh.next) (hh2.mem hh1.next) 0
  let hh3 := (hh2.write hh.next cs.buf1).write hh1.next cs.buf2
  (acc.1 + cs.value, hh3)

/-- Buffer-level embedding of `compute_metrics` (lines 19-29): the psnr and
nrmse calls on copies of the full arrays, then the ssim loop over the last
axis on copies of the 3-D slices, then the average — whose division raises
`ZeroDivisionError` when the last axis has extent 0.  Returns the result (or
the propagated error) together with the final heap (the memory state when
the call ends, normally or exceptionally). -/
def compute_metricsH (psnrI : NDArray → NDArray → CallResult RVal)
    (nrmseI : NDArray → NDArray → CallResult ℚ)
    (ssimI : NDArray → NDArray → Nat → CallResult ℚ)
    (refA xA : Nat) (h : Heap) : Except String MetricsRec × Heap :=
  let pr := cmPrelude psnrI nrmseI refA xA h
  let h6 := pr.2.2
  let n := lastDim (h6.mem refA)
  let res := (List.range n).foldl (cmStep ssimI refA xA) (0, h6)
  (if n = 0 then .error "ZeroDivisionError"
   else .ok ⟨pr.1, pr.2.1, res.1 / (n : ℚ)⟩, res.2)

/-- The interface of a model's `run` method (`recon_run.DeepRecon.run`,
external to `src/`): given the two argument buffers it returns the output
k-space and the final contents of both argument buffers. -/
abbrev RunImpl := NDArray → NDArray → CallResult NDArray

/-- The arguments one `model.run` call received (the contents of the two
buffers passed in, at call time). -/
structure RunCall where
  kArg : NDArray
  sArg : NDArray

/-- One iteration of the model evaluation loop (lines 146-156 of
`recon_compare.py`): `kspace_output = model.run(kspace_input.copy(),
sensemap)` — the first argument is a fresh copy of the shared input k-space
buffer `kA`, the second argument is the shared sensitivity-map buffer `sA`
itself, so the callee's final second-buffer contents land back at `sA`.
The trace records the argument values the call received. -/
def mlStep (kA sA : Nat) (acc : List RunCall × Heap) (run : RunImpl) :
    List RunCall × Heap :=
  let hh := acc.2
  let hh1 := hh.alloc (hh.mem kA)
  let r := run (hh1.mem hh.next) (hh1.mem sA)
  let hh2 := (hh1.write hh.next r.buf1).write sA r.buf2
  (acc.1 ++ [⟨hh1.mem hh.next, hh1.mem sA⟩], hh2)

/-- Buffer-level embedding of the model evaluation loop: fold `mlStep` over
the models discovered in the model directory. -/
def modelLoop (runs : List RunImpl) (kA sA : Nat) (h : Heap) :
    List RunCall × Heap :=
  runs.foldl (mlStep kA sA) ([], h)

/-! ### View rendering (`write_views_png`, lines 32-40)

The input is a real-valued 3-D magnitude volume.  NumPy floating-point
division by zero does not raise: it emits a runtime warning and produces
`nan` (for `0/0`) or `±inf`, so the scalar type of the normalised image is
extended with those values. -/

/-- A real-valued 3-D volume: three extents and an index function. -/
structure RArr3 where
  s0 : Nat
  s1 : Nat
  s2 : Nat
  data : Nat → Nat → Nat → ℚ

/-- The maximum magnitude `np.max(np.abs(image))` over the whole volume.  The fold starts at 0,
which agrees with the true maximum because every `|·|` is nonnegative
(NumPy would raise on an empty volume; the claims only concern nonempty or
all-zero volumes, where 0 is correct). -/
def RArr3.maxAbs (a : RArr3) : ℚ :=
  ((((List.range a.s0).map fun i =>
      (((List.range a.s1).map fun j =>
        (List.range a.s2).map fun k => |a.data i j k|)).flatten).flatten)).foldl max 0

/-- A NumPy double: finite, `nan`, `+inf` or `-inf`. -/
inductive NpF
  | fin (q : ℚ)
  | nan
  | pinf
  | ninf
deriving DecidableEq

/-- NumPy float division of finite doubles: division by zero warns (it does
not raise) and yields `nan` for `0/0` and signed infinity otherwise. -/
def npDiv (a b : ℚ) : NpF :=
  if b = 0 then (if a = 0 then .nan else if 0 < a then .pinf else .ninf)
  else .fin (a / b)

/-- Multiplication of a NumPy double by the positive constant 255. -/
def npMul255 : NpF → NpF
  | .fin q => .fin (q * 255)
  | .nan => .nan
  | .pinf => .pinf
  | .ninf => .ninf

/-- Truncation toward zero, as in a C float-to-integer cast. -/
def truncToward0 (q : ℚ) : Int :=
  if 0 ≤ q then ⌊q⌋ else -⌊-q⌋

/-- Cast `np.uint8` applied to a double: truncate toward zero and wrap modulo 256
(no clamping).  `np.uint8` of a non-finite double is platform-dependent
(undefined behaviour in C); on the common x86 path it yields 0, which is the
value modelled here — no claim depends on this choice. -/
def npUint8 : NpF → Nat
  | .fin q => (truncToward0 q % 256).toNat
  | _ => 0

/-- One pixel of `image_out = image / (np.max(np.abs(image)) * 0.9) * 255`. -/
def pixVal (a : RArr3) (i j k : Nat) : NpF :=
  npMul255 (npDiv (a.data i j k) (a.maxAbs * (9 / 10)))

/-- An 8-bit grayscale image as written by `imageio.imwrite`. -/
structure Img2 where
  h : Nat
  w : Nat
  px : Nat → Nat → Nat

/-- Embedding of `write_views_png(filebase, image)` (lines 32-40): normalise
the volume, then write the three mid-volume orthogonal slices as
`filebase + '_sag.png'` (slice at `shape[0] // 2` of axis 0),
`filebase + '_cor.png'` (axis 1) and `filebase + '_ax.png'` (axis 2), each
cast to `np.uint8`.  Returns the written files in order. -/
def write_views_png (filebase : String) (image : RArr3) :
    List (String × Img2) :=
  [ (filebase ++ "_sag.png",
      ⟨image.s1, image.s2, fun j k => npUint8 (pixVal image (image.s0 / 2) j k)⟩),
    (filebase ++ "_cor.png",
      ⟨image.s0, image.s2, fun i k => npUint8 (pixVal image i (image.s1 / 2) k)⟩),
    (filebase ++ "_ax.png",
      ⟨image.s0, image.s1, fun i j => npUint8 (pixVal image i j (image.s2 / 2))⟩) ]

/-! ### Concrete metric primitives, modelled from the spec

`utils/metrics.py` is not under `src/`; its functions are used by
`compute_metrics` only through their interface.  The spec fixes only the
identity case of each primitive, which is all the concrete definitions below
encode; the non-identity values are arbitrary placeholders and no theorem
depends on them. -/

/-- All elementwise-valid indices of a shape (the cartesian product of the
index ranges). -/
def validIndices : List Nat → List (List Nat)
  | [] => [[]]
  | n :: rest =>
      ((List.range n).map (fun i => (validIndices rest).map (fun idx => i :: idx))).flatten

/-- Boolean array equality: equal shapes and equal entries at every valid
index. -/
def ndBEq (a b : NDArray) : Bool :=
  decide (a.shape = b.shape) &&
    (validIndices a.shape).all (fun idx => decide (a.data idx = b.data idx))

/-- Modelled from the spec: `utils.metrics.compute_psnr` is not under
`src/`; the spec fixes only that psnr is `+∞` in the identity case
(`compute_metrics(x, x)` yields psnr = +∞). -/
def compute_psnr (ref x : NDArray) : RVal :=
  if ndBEq ref x then .pinf else .fin 0

/-- Modelled from the spec: `utils.metrics.compute_nrmse` is not under
`src/`; the spec fixes only that nrmse is 0 in the identity case. -/
def compute_nrmse (ref x : NDArray) : ℚ :=
  if ndBEq ref x then 0 else 1

/-- Modelled from the spec: `utils.metrics.compute_ssim` is not under
`src/`; the spec fixes only that ssim is 1 in the identity case. -/
def compute_ssim (ref x : NDArray) (sos_axis : Nat) : ℚ :=
  if ndBEq ref x then 1 else 0

theorem ndBEq_refl (a : NDArray) : ndBEq a a = true := by
  simp [ndBEq, List.all_eq_true]

theorem foldl_add_eq (f : Nat → ℚ) (l : List Nat) (a : ℚ) :
    l.foldl (fun acc i => acc + f i) a = a + (l.map f).sum := by
  induction l generalizing a with
  | nil => simp
  | cons x xs ih => simp [ih, add_assoc]

/-! ### Example arrays, heaps and metric stubs used in witnesses and
counterexamples -/

/-- An array of the given shape, constantly zero. -/
def arrOfShape (s : List Nat) : NDArray := ⟨s, fun _ => (0, 0)⟩

/-- A 6-D sensitivity-map array (more than 5 axes). -/
def ex6 : NDArray := arrOfShape [1, 1, 8, 64, 64, 64]

/-- The 4-D sensitivity map of shape `(8, 64, 64, 64)` named by the spec. -/
def ex4 : NDArray := arrOfShape [8, 64, 64, 64]

/-- A canonical 5-D sensitivity-map array. -/
def ex5 : NDArray := arrOfShape [1, 8, 64, 64, 64]

/-! ### Claim theorems -/

theorem reconPipeline_kin (od : String) (c64 : Cpx → Cpx) (pm : NDArray)
    (js : NDArray → NDArray) (ss : Option NDArray) (truth : NDArray) :
    (reconPipeline od c64 pm js ss truth).kspace_input =
      mapArr c64 (bcMul (reshapeMask pm (truth.shape.getD 1 0) (truth.shape.getD 2 0))
        truth) := by
  cases ss <;> rfl

theorem if_one_eq (n i : Nat) (h : i < n) : (if n = 1 then 0 else i) = i := by
  split <;> omega

/-- Claim C1: the input k-space is the sampling mask multiplied elementwise
(with NumPy broadcast of the `[1, z, y, 1]`-reshaped mask) against the truth
k-space, cast pointwise to complex64, and persisted exactly once to
`kspace_input.npy` in the output directory. -/
theorem C1_kspace_input_construction
    (od : String) (c64 : Cpx → Cpx) (pm : NDArray) (js : NDArray → NDArray)
    (ss : Option NDArray) (truth : NDArray) (a b c d : Nat)
    (hb : b < truth.shape.getD 1 0) (hc : c < truth.shape.getD 2 0) :
    (reconPipeline od c64 pm js ss truth).kspace_input.data [a, b, c, d] =
      c64 (cmul (pm.data [b, c]) (truth.data [a, b, c, d])) ∧
    (reconPipeline od c64 pm js ss truth).writes.filter
        (fun w => w.1 = pathJoin od "kspace_input.npy") =
      [(pathJoin od "kspace_input.npy",
        FilePayload.npy (reconPipeline od c64 pm js ss truth).kspace_input)] := by
  constructor
  · rw [reconPipeline_kin]
    simp only [mapArr, bcMul, reshapeMask, bcIdx, List.zipWith, if_pos rfl]
    rw [if_one_eq _ _ hb, if_one_eq _ _ hc]
    rfl
  · have hms : pathJoin od "mask.png" ≠ pathJoin od "kspace_input.npy" := by
      simp [pathJoin]
    have hss : pathJoin od "sensemap.npy" ≠ pathJoin od "kspace_input.npy" := by
      simp [pathJoin]
    cases ss <;>
      simp [reconPipeline, List.filter, hms, hss, reconPipeline_kin]

/-- Claim C2 counterexample: the source condition is `sensemap.ndim != 5`,
not `sensemap.ndim < 5`, so a 6-D array (5 or more axes) is NOT left
unchanged: it also gets a singleton leading axis inserted. -/
theorem C2_counterexample :
    5 ≤ ex6.ndim ∧ (normalizeSensemap ex6).ndim = 7 ∧
    normalizeSensemap ex6 ≠ ex6 := by
  refine ⟨by decide, by decide, fun h => ?_⟩
  exact absurd (congrArg NDArray.ndim h) (by decide)

/-- Claim C2 (amended): after sensitivity-map acquisition, a singleton
leading maps axis is inserted whenever the axis count differs from 5 (fewer
or more); only exactly-5-axis arrays are left unchanged.  In particular a
supplied 4-D map of shape `(8, 64, 64, 64)` becomes 5-D
`(1, 8, 64, 64, 64)`. -/
theorem C2_normalize_amended (a : NDArray) :
    (a.ndim = 5 → normalizeSensemap a = a) ∧
    (a.ndim ≠ 5 → (normalizeSensemap a).shape = 1 :: a.shape) := by
  constructor
  · intro h
    simp [normalizeSensemap, h]
  · intro h
    simp [normalizeSensemap, h, expandDims0]

theorem C2_normalize_amended_witness :
    (normalizeSensemap ex4).shape = [1, 8, 64, 64, 64] ∧
    normalizeSensemap ex5 = ex5 := by
  constructor
  · have h := (C2_normalize_amended ex4).2 (by decide)
    simpa [ex4, arrOfShape] using h
  · exact (C2_normalize_amended ex5).1 (by decide)

/-- Claim C10: the two sensitivity-map branches are asymmetric.  A supplied
map is used as loaded — no complex64 cast is applied (the result does not
depend on `c64`) and no `sensemap.npy` is written — whereas a computed map
is cast to complex64 and saved to `sensemap.npy` before use. -/
theorem C10_sensemap_branch_asymmetry
    (od : String) (c64 : Cpx → Cpx) (pm : NDArray) (js : NDArray → NDArray)
    (truth : NDArray) (s : NDArray) :
    ((reconPipeline od c64 pm js (some s) truth).sensemap = normalizeSensemap s ∧
      (reconPipeline od c64 pm js (some s) truth).writes.filter
        (fun w => w.1 = pathJoin od "sensemap.npy") = []) ∧
    ((reconPipeline od c64 pm js none truth).sensemap =
        normalizeSensemap
          (mapArr c64 (js (reconPipeline od c64 pm js none truth).kspace_input)) ∧
      (reconPipeline od c64 pm js none truth).writes.filter
        (fun w => w.1 = pathJoin od "sensemap.npy") =
      [(pathJoin od "sensemap.npy",
        FilePayload.npy
          (mapArr c64 (js (reconPipeline od c64 pm js none truth).kspace_input)))]) := by
  have hms : pathJoin od "mask.png" ≠ pathJoin od "sensemap.npy" := by
    simp [pathJoin]
  have hks : pathJoin od "kspace_input.npy" ≠ pathJoin od "sensemap.npy" := by
    simp [pathJoin]
  refine ⟨⟨rfl, ?_⟩, ⟨rfl, ?_⟩⟩ <;>
    simp [reconPipeline, List.filter, hms, hks]

/-- A concrete 4-D truth k-space of shape `[1, 2, 2, 1]` with varying data. -/
def cTruth : NDArray := ⟨[1, 2, 2, 1], fun idx => ((idx.foldl (· + ·) 0 : ℚ), 1)⟩

/-- A concrete 2-D Poisson mask of shape `[2, 2]`. -/
def cPm : NDArray := ⟨[2, 2], fun idx => ((idx.headD 0 : ℚ), 0)⟩

theorem C1_kspace_input_construction_witness :
    1 < cTruth.shape.getD 1 0 ∧ 1 < cTruth.shape.getD 2 0 ∧
    (reconPipeline "out" id cPm id none cTruth).kspace_input.data [0, 1, 1, 0] =
      id (cmul (cPm.data [1, 1]) (cTruth.data [0, 1, 1, 0])) ∧
    (reconPipeline "out" id cPm id none cTruth).writes.filter
        (fun w => w.1 = pathJoin "out" "kspace_input.npy") =
      [(pathJoin "out" "kspace_input.npy",
        FilePayload.npy (reconPipeline "out" id cPm id none cTruth).kspace_input)] := by
  have h := C1_kspace_input_construction "out" id cPm id none cTruth 0 1 1 0
    (by decide) (by decide)
  exact ⟨by decide, by decide, h.1, h.2⟩

/-- Shared computation lemma for `compute_metrics` on a reference with
nonempty last axis: psnr and nrmse are the primitive values on the full
arrays, and ssim is the sum of the per-slice primitive values divided by the
last-axis extent. -/
theorem compute_metrics_eq (psnrF : NDArray → NDArray → RVal)
    (nrmseF : NDArray → NDArray → ℚ) (ssimF : NDArray → NDArray → Nat → ℚ)
    (ref x : NDArray) (hn : lastDim ref ≠ 0) :
    compute_metrics psnrF nrmseF ssimF ref x =
      .ok ⟨psnrF ref x, nrmseF ref x,
        (((List.range (lastDim ref)).map fun i =>
            ssimF (slice3 ref i) (slice3 x i) 0).sum) / (lastDim ref : ℚ)⟩ := by
  rw [compute_metrics, if_neg hn,
    foldl_add_eq (fun i => ssimF (slice3 ref i) (slice3 x i) 0)]
  rw [zero_add]

/-- Claim C4: for 4-D arrays of equal shape with non-zero last-axis extent,
the ssim field returned by `compute_metrics` is the arithmetic mean, over
indices `i` along the last axis, of the per-volume SSIM of the 3-D slice
pairs `(ref[:, :, :, i], x[:, :, :, i])` computed with sum-of-squares
axis 0. -/
theorem C4_ssim_is_mean (psnrF : NDArray → NDArray → RVal)
    (nrmseF : NDArray → NDArray → ℚ) (ssimF : NDArray → NDArray → Nat → ℚ)
    (ref x : NDArray) (hsh : ref.shape = x.shape) (hn : lastDim ref ≠ 0) :
    compute_metrics psnrF nrmseF ssimF ref x =
      .ok ⟨psnrF ref x, nrmseF ref x,
        (((List.range (lastDim ref)).map fun i =>
            ssimF (slice3 ref i) (slice3 x i) 0).sum) / (lastDim ref : ℚ)⟩ :=
  compute_metrics_eq psnrF nrmseF ssimF ref x hn

/-- A concrete 4-D reference of shape `[1, 1, 1, 2]`. -/
def cRef4 : NDArray := ⟨[1, 1, 1, 2], fun _ => (1, 0)⟩

/-- A concrete 4-D candidate of shape `[1, 1, 1, 2]`. -/
def cX4 : NDArray := ⟨[1, 1, 1, 2], fun _ => (0, 1)⟩

/-- A constant PSNR primitive used in witnesses. -/
def pFc : NDArray → NDArray → RVal := fun _ _ => RVal.fin 3

/-- A constant NRMSE primitive used in witnesses. -/
def nFc : NDArray → NDArray → ℚ := fun _ _ => 2

/-- A constant SSIM primitive used in witnesses. -/
def sFc : NDArray → NDArray → Nat → ℚ := fun _ _ _ => 1 / 2

theorem C4_ssim_is_mean_witness :
    cRef4.shape = cX4.shape ∧ lastDim cRef4 ≠ 0 ∧
    compute_metrics pFc nFc sFc cRef4 cX4 = .ok ⟨RVal.fin 3, 2, 1 / 2⟩ := by
  refine ⟨rfl, by decide, ?_⟩
  rw [C4_ssim_is_mean pFc nFc sFc cRef4 cX4 rfl (by decide)]
  norm_num [lastDim, cRef4, pFc, nFc, sFc, List.range_succ]

/-- Claim C5: for any metric primitives whose identity cases are psnr = +∞,
nrmse = 0 and ssim = 1 (the spec's characterisation of `utils.metrics`),
`compute_metrics(x, x)` on an array with non-zero last-axis extent yields
psnr = +∞, nrmse = 0 and ssim = 1. -/
theorem C5_identity_metrics (psnrF : NDArray → NDArray → RVal)
    (nrmseF : NDArray → NDArray → ℚ) (ssimF : NDArray → NDArray → Nat → ℚ)
    (hp : ∀ a, psnrF a a = RVal.pinf) (hnr : ∀ a, nrmseF a a = 0)
    (hs : ∀ a ax, ssimF a a ax = 1) (x : NDArray) (hnz : lastDim x ≠ 0) :
    compute_metrics psnrF nrmseF ssimF x x = .ok ⟨RVal.pinf, 0, 1⟩ := by
  rw [compute_metrics_eq psnrF nrmseF ssimF x x hnz, hp, hnr]
  have hone : ∀ i, ssimF (slice3 x i) (slice3 x i) 0 = 1 := fun i => hs _ 0
  simp only [hone, List.map_const', List.length_range, List.sum_replicate,
    nsmul_eq_mul, mul_one]
  rw [div_self (by exact_mod_cast hnz)]

/-- A concrete nonempty 4-D array for the identity-case witness. -/
def cId4 : NDArray := ⟨[2, 1, 1, 3], fun idx => ((idx.headD 0 : ℚ), 5)⟩

theorem C5_identity_metrics_witness :
    lastDim cId4 ≠ 0 ∧
    compute_metrics compute_psnr compute_nrmse compute_ssim cId4 cId4 =
      .ok ⟨RVal.pinf, 0, 1⟩ := by
  refine ⟨by decide, ?_⟩
  exact C5_identity_metrics compute_psnr compute_nrmse compute_ssim
    (fun a => by simp [compute_psnr, ndBEq_refl])
    (fun a => by simp [compute_nrmse, ndBEq_refl])
    (fun a ax => by simp [compute_ssim, ndBEq_refl])
    cId4 (by decide)

/-- Claim C6: when the last-axis extent of the reference is zero,
`compute_metrics` fails with the division by zero raised while averaging the
SSIM values (`ssim_total / ref.shape[-1]` with `ref.shape[-1] = 0`); there is
no guard or recovery inside the function. -/
theorem C6_zero_lastdim_raises (psnrF : NDArray → NDArray → RVal)
    (nrmseF : NDArray → NDArray → ℚ) (ssimF : NDArray → NDArray → Nat → ℚ)
    (ref x : NDArray) (h : lastDim ref = 0) :
    compute_metrics psnrF nrmseF ssimF ref x = .error "ZeroDivisionError" := by
  rw [compute_metrics, if_pos h]

/-- A 4-D array whose last axis has extent zero. -/
def cEmpty4 : NDArray := arrOfShape [2, 3, 4, 0]

theorem C6_zero_lastdim_raises_witness :
    lastDim cEmpty4 = 0 ∧
    compute_metrics pFc nFc sFc cEmpty4 cEmpty4 = .error "ZeroDivisionError" :=
  ⟨by decide, C6_zero_lastdim_raises pFc nFc sFc cEmpty4 cEmpty4 (by decide)⟩

/-- Claim C8: on a volume with positive maximum magnitude, `write_views_png`
writes exactly three image files named by the shared prefix with suffixes
`_sag`, `_cor`, `_ax`; each slice is taken at the exact middle index (floor
division of the axis extent by 2) of one of the three axes, and each pixel
is the input value divided by 0.9 times the maximum absolute value, scaled
by 255 and cast to unsigned 8-bit with no clamping beyond the cast. -/
theorem C8_views_rendering (fb : String) (img : RArr3)
    (hpos : 0 < img.maxAbs) :
    write_views_png fb img =
      [ (fb ++ "_sag.png", ⟨img.s1, img.s2, fun j k =>
          npUint8 (.fin (img.data (img.s0 / 2) j k / (img.maxAbs * (9 / 10)) * 255))⟩),
        (fb ++ "_cor.png", ⟨img.s0, img.s2, fun i k =>
          npUint8 (.fin (img.data i (img.s1 / 2) k / (img.maxAbs * (9 / 10)) * 255))⟩),
        (fb ++ "_ax.png", ⟨img.s0, img.s1, fun i j =>
          npUint8 (.fin (img.data i j (img.s2 / 2) / (img.maxAbs * (9 / 10)) * 255))⟩) ] := by
  have hne : img.maxAbs * (9 / 10) ≠ 0 :=
    mul_ne_zero (ne_of_gt hpos) (by norm_num)
  simp [write_views_png, pixVal, npDiv, npMul255, hne]

/-- A concrete 1×1×1 volume with value 9/10 (its own maximum). -/
def cImg : RArr3 := ⟨1, 1, 1, fun _ _ _ => 9 / 10⟩

theorem C8_views_rendering_witness :
    0 < cImg.maxAbs ∧
    (write_views_png "t" cImg).map Prod.fst =
      ["t_sag.png", "t_cor.png", "t_ax.png"] ∧
    (write_views_png "t" cImg).map (fun f => f.2.px 0 0) = [27, 27, 27] := by
  have hmax : cImg.maxAbs = 9 / 10 := by
    norm_num [RArr3.maxAbs, cImg, List.range_succ]
  have h := C8_views_rendering "t" cImg (by rw [hmax]; norm_num)
  refine ⟨by rw [hmax]; norm_num, ?_, ?_⟩
  · rw [h]
    rfl
  · rw [h]
    have hdata : ∀ i j k, cImg.data i j k = 9 / 10 := fun _ _ _ => rfl
    have hval : ((9 : ℚ) / 10) / ((9 / 10) * (9 / 10)) * 255 = 850 / 3 := by
      norm_num
    simp only [List.map, hdata, hmax, hval]
    norm_num [npUint8, truncToward0]
    decide

theorem foldl_max_zeros (l : List ℚ) (h : ∀ q ∈ l, q = 0) : l.foldl max 0 = 0 := by
  induction l with
  | nil => rfl
  | cons x xs ih =>
      have hx : x = 0 := h x (List.mem_cons_self x xs)
      have hxs : ∀ q ∈ xs, q = 0 := fun q hq => h q (List.mem_cons_of_mem x hq)
      simpa [hx] using ih hxs

/-- Every element of the flattened magnitude list of an all-zero volume is
zero, so the folded maximum is zero. -/
theorem maxAbs_of_allzero (img : RArr3) (hz : ∀ i j k, img.data i j k = 0) :
    img.maxAbs = 0 := by
  rw [RArr3.maxAbs]
  apply foldl_max_zeros
  intro q hq
  rw [List.mem_flatten] at hq
  obtain ⟨l1, hl1, hq1⟩ := hq
  rw [List.mem_map] at hl1
  obtain ⟨i, _, rfl⟩ := hl1
  rw [List.mem_flatten] at hq1
  obtain ⟨l2, hl2, hq2⟩ := hq1
  rw [List.mem_map] at hl2
  obtain ⟨j, _, rfl⟩ := hl2
  rw [List.mem_map] at hq2
  obtain ⟨k, _, rfl⟩ := hq2
  rw [hz, abs_zero]

/-- Claim C9: on an all-zero volume (`max(|image|) = 0`) the normalisation
`image / (max * 0.9)` is a NumPy float division by zero, which does not
raise — it produces `nan` (with a runtime warning) — so the call completes,
writing all three view files; the `nan` pixels are then cast by `np.uint8`.
The embedding is therefore total, mirroring NumPy's non-raising
semantics. -/
theorem C9_allzero_completes (fb : String) (img : RArr3)
    (hz : ∀ i j k, img.data i j k = 0) :
    (write_views_png fb img).length = 3 ∧
    ∀ f ∈ write_views_png fb img, ∀ j k, f.2.px j k = npUint8 NpF.nan := by
  have hmax : img.maxAbs = 0 := maxAbs_of_allzero img hz
  have hpix : ∀ i j k, pixVal img i j k = NpF.nan := by
    intro i j k
    rw [pixVal, hz, hmax]
    norm_num [npDiv, npMul255]
  refine ⟨rfl, ?_⟩
  intro f hf j k
  rw [write_views_png] at hf
  simp only [List.mem_cons, List.not_mem_nil, or_false] at hf
  rcases hf with rfl | rfl | rfl <;> simp [hpix]

/-- A concrete all-zero 1×1×1 volume. -/
def zImg : RArr3 := ⟨1, 1, 1, fun _ _ _ => 0⟩

theorem C9_allzero_completes_witness :
    (write_views_png "z" zImg).length = 3 ∧
    (write_views_png "z" zImg).map (fun f => f.2.px 0 0) = [0, 0, 0] := by
  have h := C9_allzero_completes "z" zImg (fun i j k => rfl)
  refine ⟨h.1, ?_⟩
  have hmax : zImg.maxAbs = 0 := maxAbs_of_allzero zImg (fun _ _ _ => rfl)
  have hd : ∀ i j k, zImg.data i j k = 0 := fun _ _ _ => rfl
  simp only [write_views_png, List.map]
  simp [pixVal, hd, hmax, npDiv, npMul255, npUint8]

/-! ### Frame properties of the buffer-level embeddings -/

/-- Heap `h1` extends `h0` below address `n`: all addresses below `n` are still
allocated and hold their `h0` contents. -/
def preservesBelow (h0 h1 : Heap) (n : Nat) : Prop :=
  n ≤ h1.next ∧ ∀ r, r < n → h1.mem r = h0.mem r

theorem preservesBelow_refl (h : Heap) (n : Nat) (hn : n ≤ h.next) :
    preservesBelow h h n :=
  ⟨hn, fun _ _ => rfl⟩

theorem preservesBelow_alloc (h0 h1 : Heap) (n : Nat) (a : NDArray)
    (hp : preservesBelow h0 h1 n) : preservesBelow h0 (h1.alloc a) n := by
  obtain ⟨hn, hm⟩ := hp
  refine ⟨by simp only [Heap.alloc]; omega, fun r hr => ?_⟩
  simp only [Heap.alloc]
  rw [if_neg (by omega)]
  exact hm r hr

theorem preservesBelow_write (h0 h1 : Heap) (n t : Nat) (a : NDArray)
    (hp : preservesBelow h0 h1 n) (ht : n ≤ t) :
    preservesBelow h0 (h1.write t a) n := by
  obtain ⟨hn, hm⟩ := hp
  refine ⟨hn, fun r hr => ?_⟩
  simp only [Heap.write]
  rw [if_neg (by omega)]
  exact hm r hr

theorem foldl_inv {α β : Type} (P : β → Prop) (step : β → α → β)
    (hstep : ∀ b a, P b → P (step b a)) :
    ∀ (l : List α) (b : β), P b → P (l.foldl step b) := by
  intro l
  induction l with
  | nil => exact fun b hb => hb
  | cons x xs ih => exact fun b hb => ih _ (hstep b x hb)

theorem cmPrelude_preserves (psnrI : NDArray → NDArray → CallResult RVal)
    (nrmseI : NDArray → NDArray → CallResult ℚ) (refA xA : Nat) (h : Heap) :
    preservesBelow h (cmPrelude psnrI nrmseI refA xA h).2.2 h.next := by
  refine ⟨by simp only [cmPrelude, Heap.alloc, Heap.write]; omega, fun r hr => ?_⟩
  simp only [cmPrelude, Heap.alloc, Heap.write]
  iterate 8 rw [if_neg (by omega)]

theorem cmStep_preserves (ssimI : NDArray → NDArray → Nat → CallResult ℚ)
    (refA xA n0 : Nat) (h0 : Heap) (acc : ℚ × Heap) (i : Nat)
    (hp : preservesBelow h0 acc.2 n0) :
    preservesBelow h0 (cmStep ssimI refA xA acc i).2 n0 := by
  obtain ⟨hn, hm⟩ := hp
  refine ⟨by simp only [cmStep, Heap.alloc, Heap.write]; omega, fun r hr => ?_⟩
  simp only [cmStep, Heap.alloc, Heap.write]
  iterate 4 rw [if_neg (by omega)]
  exact hm r hr

/-- Claim C7: `compute_metrics` leaves both of its argument arrays
unchanged — every underlying metric primitive receives fresh copies (of the
full arrays, respectively of the 3-D slices), so even primitives that mutate
their arguments in place cannot change the caller's `ref` and `x` buffers:
after the call both hold exactly their contents from before the call. -/
theorem C7_compute_metrics_frame (psnrI : NDArray → NDArray → CallResult RVal)
    (nrmseI : NDArray → NDArray → CallResult ℚ)
    (ssimI : NDArray → NDArray → Nat → CallResult ℚ)
    (refA xA : Nat) (h : Heap) (hr : refA < h.next) (hx : xA < h.next) :
    (compute_metricsH psnrI nrmseI ssimI refA xA h).2.mem refA = h.mem refA ∧
    (compute_metricsH psnrI nrmseI ssimI refA xA h).2.mem xA = h.mem xA := by
  suffices hs : preservesBelow h (compute_metricsH psnrI nrmseI ssimI refA xA h).2
      h.next by
    exact ⟨hs.2 refA hr, hs.2 xA hx⟩
  exact foldl_inv (fun acc : ℚ × Heap => preservesBelow h acc.2 h.next)
    (cmStep ssimI refA xA)
    (fun b i hpb => cmStep_preserves ssimI refA xA h.next h b i hpb)
    (List.range (lastDim ((cmPrelude psnrI nrmseI refA xA h).2.2.mem refA)))
    (0, (cmPrelude psnrI nrmseI refA xA h).2.2)
    (cmPrelude_preserves psnrI nrmseI refA xA h)

/-- A metric primitive that swaps its two buffers (an in-place mutator). -/
def mutPsnr : NDArray → NDArray → CallResult RVal := fun a b => ⟨RVal.fin 0, b, a⟩

/-- An nrmse primitive that overwrites both buffers. -/
def mutNrmse : NDArray → NDArray → CallResult ℚ := fun _ _ => ⟨0, ex4, ex4⟩

/-- An ssim primitive that swaps its two buffers. -/
def mutSsim : NDArray → NDArray → Nat → CallResult ℚ := fun a b _ => ⟨1, b, a⟩

/-- A heap holding two distinct 4-D arrays at addresses 0 and 1. -/
def hp2 : Heap := ⟨2, fun r => if r = 0 then arrOfShape [1, 1, 1, 2] else arrOfShape [2, 1, 1, 3]⟩

theorem C7_compute_metrics_frame_witness :
    (0 : Nat) < hp2.next ∧ (1 : Nat) < hp2.next ∧
    (compute_metricsH mutPsnr mutNrmse mutSsim 0 1 hp2).2.mem 0 = hp2.mem 0 ∧
    (compute_metricsH mutPsnr mutNrmse mutSsim 0 1 hp2).2.mem 1 = hp2.mem 1 := by
  have h := C7_compute_metrics_frame mutPsnr mutNrmse mutSsim 0 1 hp2
    (by decide) (by decide)
  exact ⟨by decide, by decide, h.1, h.2⟩

/-- A model `run` that returns its first argument unchanged but overwrites
its second (the sensitivity map buffer) with a 1-D array of shape `[7]`. -/
def mutRun : RunImpl := fun a _ => ⟨a, a, arrOfShape [7]⟩

/-- A heap holding the shared input k-space at address 0 (shape `[4]`) and
the shared sensitivity map at address 1 (shape `[5]`). -/
def cHeap : Heap := ⟨2, fun r => if r = 0 then arrOfShape [4] else arrOfShape [5]⟩

/-- Claim C3 counterexample: only the input k-space is copied at the call
site (`model.run(kspace_input.copy(), sensemap)`); the sensitivity map is
passed by reference, so a model that mutates its second argument in place
does change the shared sensitivity-map array: after one iteration the shared
buffer at address 1 differs from its initial contents. -/
theorem C3_counterexample :
    (0 : Nat) < cHeap.next ∧ (1 : Nat) < cHeap.next ∧
    ((modelLoop [mutRun] 0 1 cHeap).2.mem 1).shape = [7] ∧
    (cHeap.mem 1).shape = [5] ∧
    (modelLoop [mutRun] 0 1 cHeap).2.mem 1 ≠ cHeap.mem 1 := by
  refine ⟨by decide, by decide, by decide, by decide, fun h => ?_⟩
  exact absurd (congrArg NDArray.shape h) (by decide)

/-- Claim C3 (amended): in the model evaluation loop a copy of the input
k-space is passed to each model's `run`, so every model consumes the
identical input k-space and no model invocation can mutate the shared input
k-space buffer; the sensitivity map, however, is passed without copying
(see the counterexample for the resulting mutability). -/
theorem C3_modelLoop_amended (runs : List RunImpl) (kA sA : Nat) (h : Heap)
    (hk : kA < h.next) (hs : sA < h.next) (hne : kA ≠ sA) :
    (modelLoop runs kA sA h).2.mem kA = h.mem kA ∧
    ∀ call ∈ (modelLoop runs kA sA h).1, call.kArg = h.mem kA := by
  have hinv := foldl_inv
    (fun acc : List RunCall × Heap =>
      (h.next ≤ acc.2.next ∧ acc.2.mem kA = h.mem kA) ∧
      ∀ call ∈ acc.1, call.kArg = h.mem kA)
    (mlStep kA sA) ?hstep runs ([], h) ⟨⟨le_rfl, rfl⟩, by simp⟩
  case hstep =>
    intro acc run hp
    obtain ⟨⟨hnx, hkm⟩, htr⟩ := hp
    refine ⟨⟨?_, ?_⟩, ?_⟩
    · simp only [mlStep, Heap.alloc, Heap.write]
      omega
    · simp only [mlStep, Heap.alloc, Heap.write]
      rw [if_neg hne, if_neg (by omega), if_neg (by omega)]
      exact hkm
    · intro call hc
      simp only [mlStep, List.mem_append, List.mem_singleton] at hc
      rcases hc with hc | rfl
      · exact htr call hc
      · simp only [Heap.alloc, if_pos rfl]
        exact hkm
  exact ⟨hinv.1.2, hinv.2⟩

theorem C3_modelLoop_amended_witness :
    (0 : Nat) < cHeap.next ∧ (1 : Nat) < cHeap.next ∧ (0 : Nat) ≠ 1 ∧
    (modelLoop [mutRun] 0 1 cHeap).2.mem 0 = cHeap.mem 0 := by
  have h := C3_modelLoop_amended [mutRun] 0 1 cHeap (by decide) (by decide)
    (by decide)
  exact ⟨by decide, by decide, by decide, h.1⟩
